import Mathlib

/-!
Shallow embedding of `src/main.py` (class `FibonacciDashboard`), a matplotlib
dashboard animating the Fibonacci sequence: a rotating star field, a plot of
consecutive-term ratios converging to the golden ratio, a logarithmic spiral,
and a statistics panel.

Modelling conventions:
* Python ints are `ℕ`/`ℤ`; float arithmetic is idealized as exact arithmetic
  (`ℚ` where the code divides machine-representable integers, `ℝ` where
  transcendental functions appear).
* `np.random` samples are taken as explicit list parameters; the deterministic
  arithmetic applied to them is embedded faithfully.
* Python list indexing that can raise `IndexError` and division that can raise
  `ZeroDivisionError` are embedded with `Option` (`List.get?`, guarded `/`).
* matplotlib artist mutation is not state of the model; the values handed to
  the artists each frame are collected in a `Frame` record.
-/

namespace FibonacciDashboard

/-- Constant from `__init__` (line 13): `self.GOLDEN_RATIO = (1 + np.sqrt(5)) / 2`. -/
noncomputable def GOLDEN_RATIO : ℝ := (1 + Real.sqrt 5) / 2

/-- Constant from `__init__` (line 14): `self.n_terms = 20`. -/
def n_terms : ℕ := 20

/-- Constant from `__init__` (line 15): `self.n_stars = 4000`. -/
def n_stars : ℕ := 4000

/-- Constant from `__init__` (line 16): `self.rotation_speed = 0.16`. -/
def rotation_speed : ℝ := 0.16

/-- One iteration of the loop in `initialize_fibonacci_data` (lines 48-50):
append `sequence[i-1] + sequence[i-2]` to the sequence, then append
`sequence[i] / sequence[i-1]` (computed on the extended sequence, as in the
source) to the ratios. -/
def fibStep (s : List ℕ × List ℚ) (i : ℕ) : List ℕ × List ℚ :=
  let seq := s.1 ++ [s.1.getD (i - 1) 0 + s.1.getD (i - 2) 0]
  (seq, s.2 ++ [(seq.getD i 0 : ℚ) / (seq.getD (i - 1) 0 : ℚ)])

/-- The sequence/ratios computation of `initialize_fibonacci_data`
(lines 46-50): start from `sequence = [1, 1]`, `ratios = [1]` and run the loop
`for i in range(2, self.n_terms)`. -/
def initialize_fibonacci_data : List ℕ × List ℚ :=
  (List.range' 2 (n_terms - 2)).foldl fibStep ([1, 1], [1])

/-- The field `self.sequence`. -/
def sequence : List ℕ := initialize_fibonacci_data.1

/-- The field `self.ratios`. -/
def ratios : List ℚ := initialize_fibonacci_data.2

/-- The dict `self.stats_data` built at the end of `initialize_fibonacci_data`
(lines 53-59), one field per key. -/
structure StatsData where
  nilai : List ℕ
  rasio : List ℝ
  log : List ℝ
  selisih : List ℤ

/-- The value of `self.stats_data` (lines 53-59): the sequence, the ratios with
the golden ratio appended, elementwise logarithms, and first differences with a
leading 0. -/
noncomputable def stats_data : StatsData where
  nilai := sequence
  rasio := ratios.map (fun q => (q : ℝ)) ++ [ GOLDEN_RATIO]
  log := sequence.map (fun x => Real.log x)
  selisih := [(0 : ℤ)] ++ (List.range' 1 (sequence.length - 1)).map
    (fun i => (sequence.getD i 0 : ℤ) - (sequence.getD (i - 1) 0 : ℤ))

/-- From `initialize_galaxy_data` (line 69):
`self.angular_speed = 1 / (self.r + 0.1)**0.5`, elementwise over `r`. -/
noncomputable def angular_speed_of (r : List ℝ) : List ℝ :=
  r.map (fun x => 1 / (x + 0.1) ^ (0.5 : ℝ))

/-- From `initialize_galaxy_data` (lines 73-76): the static star colors, one
RGB triple per brightness sample: `(0.8 + 0.2*b, 0.6*b, 0.4 + 0.6*b)`. -/
def initialize_galaxy_colors (brightness : List ℝ) : List (ℝ × ℝ × ℝ) :=
  brightness.map (fun b => (0.8 + 0.2 * b, 0.6 * b, 0.4 + 0.6 * b))

/-- The mutable state of the `FibonacciDashboard` object: the constants and
data fields set in `__init__`, `initialize_fibonacci_data` and
`initialize_galaxy_data` (matplotlib artists excluded). -/
structure Dashboard where
  rotation_speed : ℝ
  time : ℝ
  sequence : List ℕ
  ratios : List ℚ
  stats_data : StatsData
  theta : List ℝ
  r : List ℝ
  angular_speed : List ℝ
  colors : List (ℝ × ℝ × ℝ)
  sizes : List ℝ

/-- The state after `__init__` (lines 7-29), as a function of the `np.random`
samples: `theta` uniform angles, `r_power` and `size_power` power-law samples
in `[0, 1]`, `noise` normal noise, `brightness` power-law samples in `[0, 1]`.
`r = r_power*5 + noise` (lines 65-66), `sizes = size_power*50` (line 79),
`time = 0` (line 17). -/
noncomputable def init (theta r_power noise brightness size_power : List ℝ) :
    Dashboard where
  rotation_speed := rotation_speed
  time := 0
  sequence := sequence
  ratios := ratios
  stats_data := stats_data
  theta := theta
  r := List.zipWith (fun a b => a * 5 + b) r_power noise
  angular_speed := angular_speed_of (List.zipWith (fun a b => a * 5 + b) r_power noise)
  colors := initialize_galaxy_colors brightness
  sizes := size_power.map (fun s => s * 50)

/-- Python `int()` on a float: truncation toward zero. -/
noncomputable def pyInt (x : ℝ) : ℤ := if 0 ≤ x then ⌊x⌋ else -⌊-x⌋

/-- The frame index of `update` (line 171):
`current_idx = int(self.time * 2) % self.n_terms`, with Python's `%` (the
result of `a % b` for `b > 0` is nonnegative, as for `Int.emod`). -/
noncomputable def current_idx_of (time : ℝ) : ℕ :=
  (pyInt (time * 2) % (n_terms : ℤ)).toNat

/-- The values computed by `format_statistics` (lines 129-156); the rendered
strings are modelled by the numbers interpolated into them. -/
structure Stats where
  last_terms : List ℕ
  current_ratio : ℚ
  golden : ℝ
  growth_rate : Option ℚ
  total : ℕ
  ratio_error : Option ℝ

/-- Embedding of `format_statistics` (lines 129-156). `seq` and `rts` stand
for `self.sequence` and `self.ratios`. A Python `IndexError` (list index out
of range) or `ZeroDivisionError` is `none`; the two `if current_idx > _:`
blocks yield `none` inside `growth_rate`/`ratio_error` when skipped.
`sequence[max(0, current_idx-4):current_idx+1]` is a slice (never raises) and
is `drop`/`take`; truncated `ℕ` subtraction coincides with Python's
`max(0, current_idx-4)`. -/
noncomputable def format_statistics (seq : List ℕ) (rts : List ℚ)
    (current_idx : ℕ) : Option Stats :=
  let lo := max 0 (current_idx - 4)
  let last_terms := (seq.drop lo).take (current_idx + 1 - lo)
  match rts.get? (min current_idx (rts.length - 1)) with
  | none => none
  | some current_ratio =>
    let growth : Option (Option ℚ) :=
      if 0 < current_idx then
        match seq.get? current_idx, seq.get? (current_idx - 1) with
        | some a, some b =>
          if b = 0 then none else some (some (((a : ℚ) / (b : ℚ) - 1) * 100))
        | _, _ => none
      else some none
    match growth with
    | none => none
    | some growth_rate =>
      let total := (seq.take (current_idx + 1)).sum
      let ratio_error : Option ℝ :=
        if 1 < current_idx then some |(current_ratio : ℝ) - GOLDEN_RATIO| else none
      some { last_terms := last_terms
             current_ratio := current_ratio
             golden := GOLDEN_RATIO
             growth_rate := growth_rate
             total := total
             ratio_error := ratio_error }

/-- Embedding of `fibonacci_spiral` (lines 125-127):
`np.exp(theta / self.GOLDEN_RATIO)`. -/
noncomputable def fibonacci_spiral (theta : ℝ) : ℝ :=
  Real.exp (theta / GOLDEN_RATIO)

/-- Embedding of `generate_spiral_points` (lines 117-123) at one parameter
value `t`: `a = 0.5`, `r = a * fibonacci_spiral t`,
returns `(r * cos t, r * sin t)`. -/
noncomputable def generate_spiral_points (t : ℝ) : ℝ × ℝ :=
  let a : ℝ := 0.5
  let r := a * fibonacci_spiral t
  (r * Real.cos t, r * Real.sin t)

/-- `np.clip` on one scalar. -/
noncomputable def clip (x lo hi : ℝ) : ℝ := max lo (min x hi)

/-- `np.linspace(a, b, n)`: `n` evenly spaced samples from `a` to `b`
inclusive. -/
noncomputable def linspace (a b : ℝ) (n : ℕ) : List ℝ :=
  (List.range n).map (fun i => a + (b - a) * i / ((n : ℝ) - 1))

/-- The per-frame values `update` (lines 168-204) hands to the matplotlib
artists: fresh arrays recomputed every frame and then discarded. -/
structure Frame where
  current_idx : ℕ
  x : List ℝ
  y : List ℝ
  dynamic_colors : List (ℝ × ℝ × ℝ)
  dynamic_sizes : List ℝ
  x_data : List ℕ
  y_data : List ℚ
  spiral_x : List ℝ
  spiral_y : List ℝ
  stats : Option Stats

/-- Embedding of `update` (lines 168-204): advance `self.time` by
`self.rotation_speed` first, then recompute all per-frame data from the new
time. Elementwise numpy arithmetic becomes `List.zipWith`/`List.map`. The
returned pair is (the dashboard state after the call, the discarded frame
data). `range(1, current_idx + 2)` is `List.range' 1 (current_idx + 1)` and
`self.ratios[:current_idx + 1]` is `take`. -/
noncomputable def update (d : Dashboard) : Dashboard × Frame :=
  let time := d.time + d.rotation_speed
  let current_idx := current_idx_of time
  let rotated_theta := List.zipWith (fun th w => th + time * w) d.theta d.angular_speed
  let r_dynamic := List.zipWith
    (fun rr th => rr * (1 + 0.1 * Real.sin (time + th))) d.r rotated_theta
  let x := List.zipWith (fun rd th => rd * Real.cos th) r_dynamic rotated_theta
  let y := List.zipWith (fun rd th => rd * Real.sin th) r_dynamic rotated_theta
  let dynamic_colors := List.zipWith
    (fun c th =>
      let f := 1 + 0.2 * Real.sin (time + th)
      (clip (c.1 * f) 0 1, clip (c.2.1 * f) 0 1, clip (c.2.2 * f) 0 1))
    d.colors rotated_theta
  let dynamic_sizes := List.zipWith
    (fun s th => s * (1 + 0.3 * Real.sin (time + th))) d.sizes rotated_theta
  let x_data := List.range' 1 (current_idx + 1)
  let y_data := d.ratios.take (current_idx + 1)
  let t := linspace 0 ((current_idx : ℝ) * (Real.pi / 2)) 1000
  let spiral_x := t.map (fun s => (generate_spiral_points s).1)
  let spiral_y := t.map (fun s => (generate_spiral_points s).2)
  let stats := format_statistics d.sequence d.ratios current_idx
  ({ d with time := time },
   { current_idx := current_idx
     x := x
     y := y
     dynamic_colors := dynamic_colors
     dynamic_sizes := dynamic_sizes
     x_data := x_data
     y_data := y_data
     spiral_x := spiral_x
     spiral_y := spiral_y
     stats := stats })

/-- The state transition of one animation frame: `update`, keeping only the
mutated object state. -/
noncomputable def stepState (d : Dashboard) : Dashboard := (update d).1

/-- From `setup_plots` (line 96): `self.ax_ratio.set_ylim(1, 2)`, the fixed
y-axis limits of the ratio panel. -/
def ratio_ylim : ℚ × ℚ := (1, 2)

/-! Helper lemmas shared by the claim theorems. -/

/-- The embedded sequence agrees with Mathlib's Fibonacci numbers, shifted by
one: `sequence[i] = fib (i+1)`. -/
lemma sequence_getD_fib : ∀ i < 20, sequence.getD i 0 = Nat.fib (i + 1) := by decide

/-- Every entry of the ratios list is the quotient of adjacent sequence
entries (for `k = 0` the stored literal `1` equals `1/1`). -/
lemma ratios_getD_eq : ∀ k < 19, ratios.getD k 0 =
    (sequence.getD (k + 1) 0 : ℚ) / (sequence.getD k 0 : ℚ) := by
  intro k hk
  interval_cases k
  · exact show (1 : ℚ) = (1 : ℚ) / (1 : ℚ) by norm_num
  all_goals rfl

/-- The ratios, read in `ℝ`, are quotients of adjacent Fibonacci numbers. -/
lemma ratiosR_eq_fib (k : ℕ) (hk : k < 19) :
    ((ratios.getD k 0 : ℚ) : ℝ) = (Nat.fib (k + 2) : ℝ) / (Nat.fib (k + 1) : ℝ) := by
  rw [ratios_getD_eq k hk, sequence_getD_fib (k + 1) (by omega), sequence_getD_fib k (by omega)]
  push_cast
  ring

/-- The signed error of a Fibonacci quotient against the golden ratio
(an instance of Binet's formula). -/
lemma fib_ratio_sub (n : ℕ) (hn : 1 ≤ n) :
    (Nat.fib (n + 1) : ℝ) / (Nat.fib n : ℝ) - goldenRatio = goldenConj ^ n / (Nat.fib n : ℝ) := by
  have hF : (0 : ℝ) < (Nat.fib n : ℝ) := by exact_mod_cast Nat.fib_pos.mpr hn
  rw [div_sub' _ _ _ (ne_of_gt hF)]
  congr 1
  linarith [fib_golden_conj_exp n]

/-- The absolute error of `ratios[k]` against the golden ratio in closed
form. -/
lemma abs_ratio_err (k : ℕ) (hk : k < 19) :
    |((ratios.getD k 0 : ℚ) : ℝ) - GOLDEN_RATIO| =
      |goldenConj| ^ (k + 1) / (Nat.fib (k + 1) : ℝ) := by
  have hF : (0 : ℝ) < (Nat.fib (k + 1) : ℝ) := by
    exact_mod_cast Nat.fib_pos.mpr (by omega)
  rw [ratiosR_eq_fib k hk]
  have h := congrArg abs (fib_ratio_sub (k + 1) (by omega))
  rw [abs_div, abs_pow, abs_of_pos hF] at h
  exact h

lemma abs_goldConj_lt_one : |goldenConj| < 1 := by
  rw [abs_of_neg goldConj_neg]
  linarith [neg_one_lt_goldConj]

lemma abs_goldConj_pos : 0 < |goldenConj| := abs_pos.mpr goldConj_ne_zero

/-- Every sequence entry is at least 1. -/
lemma sequence_one_le : ∀ i < 20, 1 ≤ sequence.getD i 0 := by decide

/-- Adjacent sequence entries: the later is at least the earlier and at most
its double. -/
lemma sequence_adjacent : ∀ k < 19, sequence.getD k 0 ≤ sequence.getD (k + 1) 0 ∧
    sequence.getD (k + 1) 0 ≤ 2 * sequence.getD k 0 := by decide

/-- The checked statistics computation succeeds at every index below 20. -/
lemma format_statistics_isSome :
    ∀ idx < 20, (format_statistics sequence ratios idx).isSome = true := by
  intro idx h
  interval_cases idx <;> rfl

/-- The frame index is always below `n_terms`. -/
lemma current_idx_of_lt (t : ℝ) : current_idx_of t < n_terms := by
  have h1 : (0 : ℤ) ≤ pyInt (t * 2) % (n_terms : ℤ) :=
    Int.emod_nonneg _ (by norm_num [n_terms])
  have h2 : pyInt (t * 2) % (n_terms : ℤ) < (n_terms : ℤ) :=
    Int.emod_lt_of_pos _ (by norm_num [n_terms])
  unfold current_idx_of n_terms at *
  omega

lemma stepState_time (d : Dashboard) : (stepState d).time = d.time + d.rotation_speed := rfl

lemma stepState_rotation_speed (d : Dashboard) :
    (stepState d).rotation_speed = d.rotation_speed := rfl

/-- The frame-step leaves `rotation_speed` unchanged across any number of
frames. -/
lemma iterate_rotation_speed (d : Dashboard) :
    ∀ n : ℕ, (stepState^[n] d).rotation_speed = d.rotation_speed := by
  intro n
  induction n with
  | zero => rfl
  | succ n ih => rw [Function.iterate_succ_apply', stepState_rotation_speed, ih]

/-- The virtual clock after `n` frames. -/
lemma iterate_time (d : Dashboard) :
    ∀ n : ℕ, (stepState^[n] d).time = d.time + n * d.rotation_speed := by
  intro n
  induction n with
  | zero => simp
  | succ n ih =>
    rw [Function.iterate_succ_apply', stepState_time, ih, iterate_rotation_speed]
    push_cast
    ring

/-- Members of a `zipWith` are values of the zipped function. -/
lemma mem_zipWith {α β γ : Type*} {f : α → β → γ} {l₁ : List α} {l₂ : List β} {c : γ}
    (h : c ∈ List.zipWith f l₁ l₂) : ∃ a b, c = f a b := by
  induction l₁ generalizing l₂ with
  | nil => simp at h
  | cons x xs ih =>
    cases l₂ with
    | nil => simp at h
    | cons y ys =>
      rw [List.zipWith_cons_cons] at h
      rcases List.mem_cons.mp h with h | h
      · exact ⟨x, y, h⟩
      · exact ih h

/-- A value clipped to `[0, 1]` lies in `[0, 1]`. -/
lemma clip01 (x : ℝ) : 0 ≤ clip x 0 1 ∧ clip x 0 1 ≤ 1 :=
  ⟨le_max_left 0 _, max_le (by norm_num) (min_le_right x 1)⟩

/-! The claims. -/

/-- C1: the generated Fibonacci sequence has exactly `n_terms = 20` terms,
begins with the two terms 1, 1, and for every index `i` with `2 ≤ i < 20` the
`i`-th term equals the sum of the two preceding terms. -/
theorem c1_sequence_is_fibonacci :
    n_terms = 20 ∧ sequence.length = n_terms ∧
    sequence.getD 0 0 = 1 ∧ sequence.getD 1 0 = 1 ∧
    ∀ i : Fin 18, sequence.getD ((i : ℕ) + 2) 0 =
      sequence.getD ((i : ℕ) + 1) 0 + sequence.getD (i : ℕ) 0 :=
  ⟨rfl, by decide, by decide, by decide, by decide⟩

/-- C2: the ratios array holds the consecutive-term ratios of the sequence:
it has length `n_terms - 1 = 19`, and for every `0 ≤ k ≤ 18`,
`ratios[k] = sequence[k+1] / sequence[k]`; in particular `ratios[0] = 1`. -/
theorem c2_ratios_are_consecutive_quotients :
    ratios.length = n_terms - 1 ∧ ratios.length = 19 ∧ ratios.getD 0 0 = 1 ∧
    ∀ k : Fin 19, ratios.getD (k : ℕ) 0 =
      (sequence.getD ((k : ℕ) + 1) 0 : ℚ) / (sequence.getD (k : ℕ) 0 : ℚ) :=
  ⟨by decide, by decide, rfl, fun k => ratios_getD_eq (k : ℕ) k.isLt⟩

/-- C3: the consecutive-term ratios converge toward the golden ratio
`φ = (1 + √5)/2`: for every `k` with `0 ≤ k < 18`, the later entry of the
ratios array is strictly closer to `φ` than the earlier one, over exact real
arithmetic on the integer sequence. -/
theorem c3_ratios_strictly_approach_golden_ratio (k : ℕ) (hk : k < 18) :
    |((ratios.getD (k + 1) 0 : ℚ) : ℝ) - GOLDEN_RATIO| <
      |((ratios.getD k 0 : ℚ) : ℝ) - GOLDEN_RATIO| := by
  rw [abs_ratio_err (k + 1) (by omega), abs_ratio_err k (by omega)]
  have hF1 : (0 : ℝ) < (Nat.fib (k + 1) : ℝ) := by
    exact_mod_cast Nat.fib_pos.mpr (by omega)
  have hle : (Nat.fib (k + 1) : ℝ) ≤ (Nat.fib (k + 1 + 1) : ℝ) := by
    exact_mod_cast Nat.fib_le_fib_succ
  have hpow : |goldenConj| ^ (k + 1 + 1) < |goldenConj| ^ (k + 1) :=
    pow_lt_pow_right_of_lt_one₀ abs_goldConj_pos abs_goldConj_lt_one (by omega)
  calc |goldenConj| ^ (k + 1 + 1) / (Nat.fib (k + 1 + 1) : ℝ)
      ≤ |goldenConj| ^ (k + 1 + 1) / (Nat.fib (k + 1) : ℝ) :=
        div_le_div_of_nonneg_left (by positivity) hF1 hle
    _ < |goldenConj| ^ (k + 1) / (Nat.fib (k + 1) : ℝ) :=
        (div_lt_div_iff_of_pos_right hF1).mpr hpow

/-- C3 witness: the concrete instance `k = 0`: `|ratios[1] - φ| < |ratios[0] - φ|`. -/
theorem c3_witness :
    |((ratios.getD 1 0 : ℚ) : ℝ) - GOLDEN_RATIO| <
      |((ratios.getD 0 0 : ℚ) : ℝ) - GOLDEN_RATIO| :=
  c3_ratios_strictly_approach_golden_ratio 0 (by norm_num)

/-- C4: the spiral overlay is a closed-form logarithmic spiral: for every `t`,
`generate_spiral_points t` is `(r cos t, r sin t)` with `r = 0.5 * exp (t/φ)`,
where `φ` is the golden ratio `(1 + √5)/2`. -/
theorem c4_logarithmic_spiral (t : ℝ) :
    generate_spiral_points t =
      (0.5 * Real.exp (t / GOLDEN_RATIO) * Real.cos t,
       0.5 * Real.exp (t / GOLDEN_RATIO) * Real.sin t) ∧
    GOLDEN_RATIO = (1 + Real.sqrt 5) / 2 :=
  ⟨rfl, rfl⟩

/-- C5: the static derived data are never mutated by the per-frame update:
`sequence`, `ratios`, `stats_data`, `theta`, `r`, `angular_speed`, `colors`
and `sizes` are identical before and after any call of `update`, which
mutates only the virtual clock `time` (the per-frame arrays live in the
discarded `Frame` value). -/
theorem c5_update_mutates_only_time (d : Dashboard) :
    (update d).1.sequence = d.sequence ∧ (update d).1.ratios = d.ratios ∧
    (update d).1.stats_data = d.stats_data ∧ (update d).1.theta = d.theta ∧
    (update d).1.r = d.r ∧ (update d).1.angular_speed = d.angular_speed ∧
    (update d).1.colors = d.colors ∧ (update d).1.sizes = d.sizes ∧
    (update d).1.rotation_speed = d.rotation_speed ∧
    (update d).1.time = d.time + d.rotation_speed :=
  ⟨rfl, rfl, rfl, rfl, rfl, rfl, rfl, rfl, rfl, rfl⟩

/-- C6: the virtual clock starts at 0, every `update` first adds the fixed
constant `rotation_speed = 0.16` to it (and computes the frame from the
advanced clock), so across any sequence of frames `time` is strictly
increasing. -/
theorem c6_clock_strictly_increasing
    (theta r_power noise brightness size_power : List ℝ) :
    (init theta r_power noise brightness size_power).time = 0 ∧
    rotation_speed = 0.16 ∧
    (∀ d : Dashboard, (update d).1.time = d.time + d.rotation_speed) ∧
    (∀ d : Dashboard, (update d).2.current_idx = current_idx_of (d.time + d.rotation_speed)) ∧
    ∀ m n : ℕ, m < n →
      (stepState^[m] (init theta r_power noise brightness size_power)).time <
        (stepState^[n] (init theta r_power noise brightness size_power)).time := by
  refine ⟨rfl, rfl, fun d => rfl, fun d => rfl, fun m n hmn => ?_⟩
  rw [iterate_time, iterate_time]
  have e1 : (init theta r_power noise brightness size_power).time = 0 := rfl
  have e2 : (init theta r_power noise brightness size_power).rotation_speed = 0.16 := rfl
  rw [e1, e2]
  have hmn2 : (m : ℝ) < (n : ℝ) := by exact_mod_cast hmn
  nlinarith [hmn2]

/-- C6 witness: with empty sample lists, the clock after one frame exceeds the
clock after zero frames. -/
theorem c6_witness :
    (stepState^[0] (init [] [] [] [] [])).time < (stepState^[1] (init [] [] [] [] [])).time :=
  (c6_clock_strictly_increasing [] [] [] [] []).2.2.2.2 0 1 (by norm_num)

/-- C7: the per-frame computation cannot fail at runtime: every sequence term
is at least 1 (so every divisor is nonzero), and for every value of the
virtual clock the checked embedding of `format_statistics` returns a value
(no division and no list access takes its error branch). -/
theorem c7_no_runtime_failure :
    (∀ i : Fin 20, 1 ≤ sequence.getD (i : ℕ) 0) ∧
    ∀ t : ℝ, (format_statistics sequence ratios (current_idx_of t)).isSome = true :=
  ⟨fun i => sequence_one_le (i : ℕ) i.isLt,
   fun t => format_statistics_isSome _ (current_idx_of_lt t)⟩

/-- C8: every entry of the ratios array lies in the closed interval `[1, 2]`
(the y-limits `ratio_ylim` of the ratio panel), because adjacent sequence
entries satisfy `sequence[k] ≤ sequence[k+1] ≤ 2 * sequence[k]`. -/
theorem c8_ratios_within_ylim :
    (∀ k : Fin 19, sequence.getD (k : ℕ) 0 ≤ sequence.getD ((k : ℕ) + 1) 0 ∧
      sequence.getD ((k : ℕ) + 1) 0 ≤ 2 * sequence.getD (k : ℕ) 0) ∧
    ∀ k : Fin 19, ratio_ylim.1 ≤ ratios.getD (k : ℕ) 0 ∧
      ratios.getD (k : ℕ) 0 ≤ ratio_ylim.2 := by
  refine ⟨fun k => sequence_adjacent (k : ℕ) k.isLt, fun k => ?_⟩
  obtain ⟨hmono, hdouble⟩ := sequence_adjacent (k : ℕ) k.isLt
  have hone := sequence_one_le (k : ℕ) (by omega)
  have hb : (0 : ℚ) < (sequence.getD (k : ℕ) 0 : ℚ) := by exact_mod_cast hone
  rw [ratios_getD_eq (k : ℕ) k.isLt]
  constructor
  · show (1 : ℚ) ≤ _
    rw [one_le_div hb]
    exact_mod_cast hmono
  · show _ ≤ (2 : ℚ)
    rw [div_le_iff₀ hb]
    exact_mod_cast hdouble

/-- C9: for every nonnegative virtual-clock value the frame index
`current_idx = int(time*2) % n_terms` lies in `[0, 19]`, every access of
`format_statistics` is in bounds, and the ratios access needs its clamp
`min current_idx (ratios.length - 1)`: `current_idx` reaches 19 (e.g. at
`time = 19/2`) while `ratios` has only 19 entries. -/
theorem c9_frame_index_bounds (t : ℝ) (ht : 0 ≤ t) :
    current_idx_of t ≤ 19 ∧
    min (current_idx_of t) (ratios.length - 1) < ratios.length ∧
    (format_statistics sequence ratios (current_idx_of t)).isSome = true ∧
    current_idx_of ((19 : ℝ) / 2) = 19 ∧
    ratios.length = 19 := by
  have h := current_idx_of_lt t
  have hn : n_terms = 20 := rfl
  have hlen : ratios.length = 19 := by decide
  refine ⟨by omega, by omega, format_statistics_isSome _ (by omega), ?_, hlen⟩
  have h192 : ((19 : ℝ) / 2) * 2 = ((19 : ℤ) : ℝ) := by norm_num
  unfold current_idx_of pyInt
  rw [h192, if_pos (show (0 : ℝ) ≤ ((19 : ℤ) : ℝ) by norm_num), Int.floor_intCast]
  decide

/-- C9 witness: the concrete instance `t = 0`. -/
theorem c9_witness :
    current_idx_of 0 ≤ 19 ∧
    min (current_idx_of 0) (ratios.length - 1) < ratios.length ∧
    (format_statistics sequence ratios (current_idx_of 0)).isSome = true ∧
    current_idx_of ((19 : ℝ) / 2) = 19 ∧
    ratios.length = 19 :=
  c9_frame_index_bounds 0 le_rfl

/-- C10: the color data handed to the renderer is a valid RGB triple per
star: for brightness samples in `[0, 1]` the static base colors have red in
`[0.8, 1]`, green in `[0, 0.6]`, blue in `[0.4, 1]`; and in every frame each
component of the dynamically scaled colors is clipped into `[0, 1]`. -/
theorem c10_colors_valid :
    (∀ brightness : List ℝ, (∀ b ∈ brightness, 0 ≤ b ∧ b ≤ 1) →
      ∀ c ∈ initialize_galaxy_colors brightness,
        (0.8 ≤ c.1 ∧ c.1 ≤ 1) ∧ (0 ≤ c.2.1 ∧ c.2.1 ≤ 0.6) ∧
          (0.4 ≤ c.2.2 ∧ c.2.2 ≤ 1)) ∧
    ∀ d : Dashboard, ∀ c ∈ (update d).2.dynamic_colors,
      (0 ≤ c.1 ∧ c.1 ≤ 1) ∧ (0 ≤ c.2.1 ∧ c.2.1 ≤ 1) ∧ (0 ≤ c.2.2 ∧ c.2.2 ≤ 1) := by
  constructor
  · intro bs hbs c hc
    simp only [initialize_galaxy_colors, List.mem_map] at hc
    obtain ⟨b, hb, rfl⟩ := hc
    obtain ⟨h0, h1⟩ := hbs b hb
    exact ⟨⟨by linarith, by linarith⟩, ⟨by linarith, by linarith⟩, by linarith, by linarith⟩
  · intro d c hc
    obtain ⟨a, th, rfl⟩ := mem_zipWith hc
    exact ⟨clip01 _, clip01 _, clip01 _⟩

end FibonacciDashboard
